import Mathlib

/-!
Verification of the topological feature-extraction stage of the
Anomaly_Detection_CHEM_AD pipeline.

The development shallowly embeds `04_extract_topological_features.py`
(graph construction, graph metrics, batch orchestration, error logging)
together with the pieces of `03_extract_chemical_features.py` that feed it
(the selection of CIF files, whose output forms the validated-ID table, and
its error-log format).  Line numbers in the doc comments refer to those two
source files.
-/

namespace ChemAD

/-! ## Graph model: `nx.Graph(sg.graph)` (line 28 of the topological stage) -/

/-- Canonical form of an undirected edge: the pair is stored with the smaller
endpoint first, so that `(a, b)` and `(b, a)` denote the same edge, as in the
conversion of the directed multigraph `sg.graph` into an undirected
`nx.Graph`. -/
def canonPair (p : Nat × Nat) : Nat × Nat :=
  if p.1 ≤ p.2 then p else (p.2, p.1)

/-- The graph `g = nx.Graph(sg.graph)` built at line 28: node set
`0 .. N - 1` (one node per site of the parsed structure — `StructureGraph`
creates a node for every site, including isolated ones) and a finite set of
canonically oriented undirected edges.  A self-loop `(a, a)` is a valid
member of `edges`: `nx.Graph` keeps loops. -/
structure NeighborGraph where
  N : Nat
  edges : Finset (Nat × Nat)
  deriving DecidableEq

/-- The bond list recorded by `StructureGraph.with_local_env_strategy`
(line 27): for every atom index `i`, one entry per neighbor reported by the
bonding strategy (`CrystalNN`).  The list may contain duplicates, reversed
pairs, and pairs `(i, i)` when an atom is bonded to its own periodic
image. -/
def strategyBonds (numAtoms : Nat) (findNeighbors : Nat → List Nat) :
    List (Nat × Nat) :=
  (List.range numAtoms).flatMap (fun i => (findNeighbors i).map (fun j => (i, j)))

/-- Conversion `nx.Graph(sg.graph)`: every listed bond is canonicalized and
inserted into a set, which collapses parallel and reversed duplicates into a
single edge but keeps self-loops. -/
def nxGraphOfBonds (numAtoms : Nat) (bonds : List (Nat × Nat)) :
    NeighborGraph :=
  ⟨numAtoms, (bonds.map canonPair).toFinset⟩

/-- Lines 25-28: build the graph of a structure with `numAtoms` atoms from
the bonding strategy. -/
def buildGraph (numAtoms : Nat) (findNeighbors : Nat → List Nat) :
    NeighborGraph :=
  nxGraphOfBonds numAtoms (strategyBonds numAtoms findNeighbors)

/-! ## Degrees and neighborhoods -/

/-- Degree of node `a` as computed by `g.degree()` in networkx: the number of
incident edges, a self-loop counting twice. -/
def degreeOf (g : NeighborGraph) (a : Nat) : Nat :=
  (g.edges.filter (fun p => p.1 = a ∨ p.2 = a)).card
    + (if (a, a) ∈ g.edges then 1 else 0)

/-- The list `degrees = [d for _, d in g.degree()]` (line 33), in node
order. -/
def degreeList (g : NeighborGraph) : List Nat :=
  (List.range g.N).map (degreeOf g)

/-- Nodes adjacent to `a` (self-adjacency via a loop included; it is
irrelevant for reachability). -/
def neighborsOf (g : NeighborGraph) (a : Nat) : List Nat :=
  (List.range g.N).filter (fun b => decide (canonPair (a, b) ∈ g.edges))

/-! ## Reachability and connectivity (`nx.is_connected`, components) -/

/-- One round of neighbor expansion of a node set. -/
def expandOnce (g : NeighborGraph) (s : List Nat) : List Nat :=
  (s ++ s.flatMap (neighborsOf g)).dedup

/-- Nodes reachable from `src`, computed as `g.N` rounds of neighbor
expansion (enough, since a reachable node is at distance at most
`g.N - 1`). -/
def reachList (g : NeighborGraph) (src : Nat) : List Nat :=
  Nat.iterate (expandOnce g) g.N [src]

/-- Model of `nx.is_connected(g)` (line 30): raises
`NetworkXPointlessConcept` on the zero-node graph, otherwise checks whether
a breadth-first search from the first node visits all `g.N` nodes. -/
def nx_is_connected (g : NeighborGraph) : Except String Bool :=
  if g.N = 0 then
    Except.error "Connectivity is undefined for the null graph."
  else
    Except.ok ((reachList g 0).length == g.N)

/-- Model of `nx.number_connected_components(g)` (line 49): one component
per node that is the smallest node of its component. -/
def numConnectedComponents (g : NeighborGraph) : Nat :=
  ((List.range g.N).filter
    (fun a => (reachList g a).all (fun b => decide (a ≤ b)))).length

/-- Size of the largest connected component, `len(largest_cc)` (line 35);
`0` for the empty graph. -/
def largestCCSize (g : NeighborGraph) : Nat :=
  ((List.range g.N).map (fun a => (reachList g a).length)).foldr max 0

/-- Line 36: `len(largest_cc) / g.number_of_nodes() if ... > 0 else 0`. -/
def largestCCFraction (g : NeighborGraph) : ℚ :=
  if 0 < g.N then (largestCCSize g : ℚ) / (g.N : ℚ) else 0

/-! ## Breadth-first distances (diameter, radius, average shortest path) -/

/-- Next breadth-first layer: unvisited neighbors of the frontier. -/
def bfsNext (g : NeighborGraph) (visited frontier : List Nat) : List Nat :=
  ((frontier.flatMap (neighborsOf g)).filter
    (fun b => !(visited.contains b))).dedup

/-- Fuelled breadth-first layer construction. -/
def bfsLayersAux (g : NeighborGraph) :
    Nat → List Nat → List Nat → List (List Nat)
  | 0, _, _ => []
  | fuel + 1, visited, frontier =>
    let nf := bfsNext g visited frontier
    if nf.isEmpty then []
    else nf :: bfsLayersAux g fuel (visited ++ nf) nf

/-- Breadth-first layers from `src`: layer `d` holds the nodes at distance
`d` from `src`. -/
def bfsLayers (g : NeighborGraph) (src : Nat) : List (List Nat) :=
  [src] :: bfsLayersAux g g.N [src] [src]

/-- Eccentricity of `src` (the largest breadth-first distance from `src`),
as used by `nx.diameter` and `nx.radius` on a connected graph. -/
def eccentricity (g : NeighborGraph) (src : Nat) : Nat :=
  (bfsLayers g src).length - 1

/-- Model of `nx.diameter(g)` (line 60) on a connected graph: the maximum
eccentricity. -/
def graphDiameter (g : NeighborGraph) : Nat :=
  ((List.range g.N).map (eccentricity g)).foldr max 0

/-- Model of `nx.radius(g)` (line 61) on a connected graph: the minimum
eccentricity. -/
def graphRadius (g : NeighborGraph) : Nat :=
  (((List.range g.N).map (eccentricity g)).min?).getD 0

/-- Sum of the breadth-first distances from `src` to every reachable
node. -/
def distSumFrom (g : NeighborGraph) (src : Nat) : Nat :=
  ((bfsLayers g src).enum.map (fun p => p.1 * p.2.length)).sum

/-- Model of `nx.average_shortest_path_length(g)` (line 62) on a connected
graph: `0` for a single node, otherwise the sum of all pairwise distances
divided by `n * (n - 1)`. -/
def avgShortestPathLength (g : NeighborGraph) : ℚ :=
  if g.N = 1 then 0
  else (((List.range g.N).map (distSumFrom g)).sum : ℚ)
    / ((g.N * (g.N - 1) : Nat) : ℚ)

/-! ## Remaining scalar descriptors -/

/-- Model of `nx.density(g)` (line 48): `0` when there are no edges or at
most one node, otherwise `2 * E / (N * (N - 1))`. -/
def graphDensity (g : NeighborGraph) : ℚ :=
  if g.edges.card = 0 ∨ g.N ≤ 1 then 0
  else 2 * (g.edges.card : ℚ) / ((g.N * (g.N - 1) : Nat) : ℚ)

/-- Line 47: `np.mean(degrees) if degrees else 0`. -/
def avgNodeConnectivity (g : NeighborGraph) : ℚ :=
  if g.N = 0 then 0 else ((degreeList g).sum : ℚ) / (g.N : ℚ)

/-- Line 40: `total_nodes = sum(degree_counts.values())`, the sum of the
multiplicities of the distinct degree values. -/
def totalNodes (g : NeighborGraph) : Nat :=
  ∑ k in (degreeList g).toFinset, (degreeList g).count k

/-- Lines 39-42: Shannon entropy in bits of the empirical degree
distribution, `-sum(probs * log2(probs))` over the distinct observed degree
values, each with probability `count / total_nodes`. -/
noncomputable def graphEntropy (g : NeighborGraph) : ℝ :=
  -∑ k in (degreeList g).toFinset,
      (((degreeList g).count k : ℝ) / (totalNodes g : ℝ))
        * Real.logb 2 (((degreeList g).count k : ℝ) / (totalNodes g : ℝ))

/-! ## The per-graph metric computation (lines 30-66) -/

/-- The fields of the result dictionary of `extract_topo_features` that this
development models exactly.  The floating-point fields
`clustering_coefficient_mean`, `degree_assortativity`, `graph_transitivity`
are not modelled here, and the `graph_entropy` field is modelled by the
real-valued function `graphEntropy` above. -/
structure TopoMetrics where
  avg_node_connectivity : ℚ
  graph_density : ℚ
  num_connected_components : Nat
  largest_cc_fraction : ℚ
  is_connected : Nat
  graph_diameter : Int
  graph_radius : Int
  avg_shortest_path_length : ℚ
  deriving DecidableEq

/-- Lines 30-66 of `extract_topo_features`: the metric computation on the
built graph.  `nx.is_connected` raises on the zero-node graph, modelled as
`Except.error`; otherwise every modelled descriptor is computed, with the
three connectivity-dependent metrics set to the sentinel `-1` when the
graph is disconnected. -/
def topoMetricsE (g : NeighborGraph) : Except String TopoMetrics :=
  match nx_is_connected g with
  | Except.error e => Except.error e
  | Except.ok isConn => Except.ok {
    avg_node_connectivity := avgNodeConnectivity g
    graph_density := graphDensity g
    num_connected_components := numConnectedComponents g
    largest_cc_fraction := largestCCFraction g
    is_connected := if isConn then 1 else 0
    graph_diameter := if isConn then (graphDiameter g : Int) else -1
    graph_radius := if isConn then (graphRadius g : Int) else -1
    avg_shortest_path_length :=
      if isConn then avgShortestPathLength g else -1
  }

/-! ## Batch orchestration (`extract_topological_features`, lines 74-131) -/

/-- Contents of the CIF directory, keyed by MOF ID.  The file consulted for
ID `m` is `cif_folder/<m>.cif` (lines 21 and 103); the path construction is
injective in the ID, so the directory is modelled as a map from IDs.
`none`: the file does not exist.  `some (Except.error e)`: the file exists,
but parsing it or building its graph raises an exception with message `e`.
`some (Except.ok g)`: parsing and graph construction yield the graph `g`. -/
def CifDir : Type := String → Option (Except String NeighborGraph)

/-- The try-block of `extract_topo_features` (lines 23-68) for one ID:
`Structure.from_file` raises when the file is absent, the parse/graph
pipeline propagates its own exceptions, and otherwise the metrics are
computed (which itself raises on a zero-node graph). -/
def taskOutcome (dir : CifDir) (mof_id : String) :
    Except String TopoMetrics :=
  match dir mof_id with
  | none => Except.error ("No such file or directory: " ++ mof_id ++ ".cif")
  | some (Except.error e) => Except.error e
  | some (Except.ok g) => topoMetricsE g

/-- One collected result row (a Python dict): the MOF ID, plus the metric
fields when the task succeeded.  `metrics = none` models the one-key
dictionary `{"MOF_ID": mof_id}` returned on failure (line 72). -/
structure TopoRecord where
  mof_id : String
  metrics : Option TopoMetrics
  deriving DecidableEq

/-- The whole worker function `extract_topo_features` (lines 15-72): any
exception in the try-block is caught and converted into the ID-only
dictionary. -/
def extract_topo_features (dir : CifDir) (mof_id : String) : TopoRecord :=
  match taskOutcome dir mof_id with
  | Except.ok m => ⟨mof_id, some m⟩
  | Except.error _ => ⟨mof_id, none⟩

/-- Number of keys of the dictionary a task returns: thirteen on success
(`MOF_ID` plus twelve metric fields), one on failure. -/
def recordKeys (r : TopoRecord) : Nat :=
  match r.metrics with
  | some _ => 13
  | none => 1

/-- Python truthiness of the returned dictionary, tested by `if result:` at
line 116: a dict is truthy iff it has at least one key. -/
def recordTruthy (r : TopoRecord) : Bool :=
  recordKeys r != 0

/-- Lines 100-106: the validated-ID table is reduced to a Python set (here:
`dedup`) and an ID becomes a task only when its CIF file exists. -/
def tasksOf (dir : CifDir) (subsetIds : List String) : List String :=
  subsetIds.dedup.filter (fun mof_id => (dir mof_id).isSome)

/-- Lines 114-117: each completed future's result is appended when it is
truthy. -/
def collectResults (rs : List TopoRecord) : List TopoRecord :=
  rs.filter recordTruthy

/-- A possible outcome of the parallel run (lines 111-117): results arrive
in `as_completed` order, an arbitrary permutation of the submitted tasks,
and are collected through the truthiness filter. -/
def BatchRun (dir : CifDir) (subsetIds : List String)
    (out : List TopoRecord) : Prop :=
  ∃ order : List String, order.Perm (tasksOf dir subsetIds)
    ∧ out = collectResults (order.map (extract_topo_features dir))

/-! ## Error-log lines -/

/-- Line 71 of the topological stage, with the logging format
`'%(message)s'` configured at line 96: a failure for `mof_id` appends the
single line `f"Error processing {mof_id}: {e}"` to the log. -/
def topoErrorLogLine (mof_id err : String) : String :=
  "Error processing " ++ mof_id ++ ": " ++ err

/-- The line format the specification asserts for the error log: the ID, a
colon and a space, then the reason. -/
def specLogLine (mof_id reason : String) : String :=
  mof_id ++ ": " ++ reason

/-- Line 142 of the chemical stage: each failure writes
`f"{fname}: {reason}\n"`, keyed by the file name `<id>.cif` rather than the
bare ID, to a log opened in truncating write mode `"w"` (line 140). -/
def chemLogLine (filename reason : String) : String :=
  filename ++ ": " ++ reason

/-- The log lines contributed by one task of the topological stage. -/
def taskLogLines (dir : CifDir) (mof_id : String) : List String :=
  match taskOutcome dir mof_id with
  | Except.ok _ => []
  | Except.error e => [topoErrorLogLine mof_id e]

/-- The sequence of lines appended to the topological error log during one
run (one line per failing task, none per succeeding task). -/
def topoRunLog (dir : CifDir) (subsetIds : List String) : List String :=
  (tasksOf dir subsetIds).flatMap (taskLogLines dir)

/-! ## Chemical-stage file selection (lines 107-110 of the chemical stage) -/

/-- Python `str.endswith`, modelled on the character list. -/
def pyEndsWith (s suffix : String) : Bool :=
  suffix.data.isSuffixOf s.data

/-- Python `str.startswith`, modelled on the character list. -/
def pyStartsWith (s pre : String) : Bool :=
  pre.data.isPrefixOf s.data

/-- Lines 107-110 of `extract_chemical_features`: every `.cif` file whose
name does not start with `hMOF-` is selected, and of the `.cif` files whose
name starts with `hMOF-` only the first 15000 in directory-listing order
are. -/
def selectChemFiles (allFiles : List String) : List String :=
  (allFiles.filter (fun f => pyEndsWith f ".cif" && !(pyStartsWith f "hMOF-")))
    ++ ((allFiles.filter
          (fun f => pyEndsWith f ".cif" && pyStartsWith f "hMOF-")).take 15000)

/-! ## Basic lemmas about the graph construction -/

theorem canonPair_fst_le_snd (p : Nat × Nat) :
    (canonPair p).1 ≤ (canonPair p).2 := by
  unfold canonPair
  split
  case isTrue h => exact h
  case isFalse h => exact Nat.le_of_lt (Nat.lt_of_not_le h)

theorem mem_buildGraph_edges (numAtoms : Nat) (findNeighbors : Nat → List Nat)
    (p : Nat × Nat) :
    p ∈ (buildGraph numAtoms findNeighbors).edges ↔
      ∃ i < numAtoms, ∃ j ∈ findNeighbors i, canonPair (i, j) = p := by
  unfold buildGraph nxGraphOfBonds strategyBonds
  simp only [List.mem_toFinset, List.mem_map, List.mem_flatMap,
    List.mem_range]
  constructor
  · rintro ⟨q, ⟨i, hi, j, hj, rfl⟩, rfl⟩
    exact ⟨i, hi, j, hj, rfl⟩
  · rintro ⟨i, hi, j, hj, rfl⟩
    exact ⟨(i, j), ⟨i, hi, j, hj, rfl⟩, rfl⟩

/-! ## Claim C4 -/

/-- C4, counterexample: the claim asserts that the built graph never
contains a self-loop.  But for a one-atom structure whose bonding strategy
reports the atom bonded to its own periodic image, the built graph's edge
set is exactly the self-loop `(0, 0)`: `nx.Graph` does not drop loops. -/
theorem claim_C4_counterexample :
    (buildGraph 1 (fun _ => [0])).edges = {(0, 0)} := by decide

/-- C4 (amended): for every structure with `numAtoms` atoms and every
bonding strategy, the built graph has exactly `numAtoms` nodes and its edge
set is canonical — each unordered pair is stored once with the smaller
endpoint first, so parallel and reversed duplicates from periodic-image
bonding collapse into one edge — and an edge is present exactly when the
strategy reported the bond; self-loops reported by the strategy are
retained, not dropped. -/
theorem claim_C4_thm (numAtoms : Nat) (findNeighbors : Nat → List Nat) :
    (buildGraph numAtoms findNeighbors).N = numAtoms
    ∧ (∀ p ∈ (buildGraph numAtoms findNeighbors).edges, p.1 ≤ p.2)
    ∧ (∀ a b : Nat, (a, b) ∈ (buildGraph numAtoms findNeighbors).edges →
        (b, a) ∈ (buildGraph numAtoms findNeighbors).edges → a = b)
    ∧ (∀ a b : Nat,
        (canonPair (a, b) ∈ (buildGraph numAtoms findNeighbors).edges ↔
          ∃ i < numAtoms, ∃ j ∈ findNeighbors i,
            canonPair (i, j) = canonPair (a, b))) := by
  refine ⟨rfl, ?_, ?_, ?_⟩
  · intro p hp
    rcases (mem_buildGraph_edges numAtoms findNeighbors p).mp hp
      with ⟨i, _, j, _, hc⟩
    have := canonPair_fst_le_snd (i, j)
    rw [hc] at this
    exact this
  · intro a b hab hba
    rcases (mem_buildGraph_edges numAtoms findNeighbors (a, b)).mp hab
      with ⟨i, _, j, _, hc⟩
    rcases (mem_buildGraph_edges numAtoms findNeighbors (b, a)).mp hba
      with ⟨i2, _, j2, _, hc2⟩
    have h1 := canonPair_fst_le_snd (i, j)
    have h2 := canonPair_fst_le_snd (i2, j2)
    rw [hc] at h1
    rw [hc2] at h2
    exact Nat.le_antisymm h1 h2
  · intro a b
    exact mem_buildGraph_edges numAtoms findNeighbors (canonPair (a, b))

/-- C4 witness: the amended theorem applied to a concrete two-atom
structure with one mutual bond, discharging the edge-membership hypotheses
at the concrete edge. -/
theorem claim_C4_witness :
    (buildGraph 2 (fun i => [1 - i])).N = 2
    ∧ ((0, 1) ∈ (buildGraph 2 (fun i => [1 - i])).edges → (0 : Nat) ≤ 1)
    ∧ (0, 1) ∈ (buildGraph 2 (fun i => [1 - i])).edges := by
  refine ⟨(claim_C4_thm 2 (fun i => [1 - i])).1, ?_, ?_⟩
  · intro h
    exact (claim_C4_thm 2 (fun i => [1 - i])).2.1 (0, 1) h
  · exact ((claim_C4_thm 2 (fun i => [1 - i])).2.2.2 0 1).mpr
      ⟨0, by decide, 1, by decide, by decide⟩

/-! ## Claims C2 and C3 -/

/-- The average shortest-path length is a mean of nonnegative distances. -/
theorem avgShortestPathLength_nonneg (g : NeighborGraph) :
    0 ≤ avgShortestPathLength g := by
  unfold avgShortestPathLength
  split
  · exact le_refl 0
  · exact div_nonneg (by positivity) (by positivity)

/-- C2, counterexample: the claim asserts the metric computation never
throws on a well-formed graph, including the zero-node graph.  But on the
zero-node graph `nx.is_connected` (the first metric evaluated, line 30)
raises `NetworkXPointlessConcept`, so no descriptor record is produced. -/
theorem claim_C2_counterexample :
    topoMetricsE ⟨0, ∅⟩ =
      Except.error "Connectivity is undefined for the null graph." := rfl

/-- C2 (amended): the metric computation succeeds exactly on graphs with at
least one node.  For the zero-node graph it raises at the connectivity
check (the failure is caught at the task boundary and turned into a
failure record), so `avg_node_connectivity` is never reported as `0` for
`N = 0`. -/
theorem claim_C2_thm (g : NeighborGraph) :
    (∃ m, topoMetricsE g = Except.ok m) ↔ 1 ≤ g.N := by
  unfold topoMetricsE nx_is_connected
  by_cases h : g.N = 0
  · simp [h]
  · simp only [h, if_false]
    constructor
    · intro _
      omega
    · intro _
      exact ⟨_, rfl⟩

/-- The record a successful metric computation produces (used to state
concrete facts without writing out every field). -/
def metricsOrDefault (g : NeighborGraph) : TopoMetrics :=
  match topoMetricsE g with
  | Except.ok m => m
  | Except.error _ =>
    ⟨0, 0, 0, 0, 0, 0, 0, 0⟩

/-- C3, counterexample: the claim asserts that a graph with `N ≤ 1` nodes
yields `-1` for diameter, radius and average shortest-path length.  But the
one-node graph is connected for networkx, so the code takes the connected
branch and reports `0` for all three, not `-1`. -/
theorem claim_C3_counterexample :
    (topoMetricsE ⟨1, ∅⟩).map (fun m => m.graph_diameter) = Except.ok 0
    ∧ (topoMetricsE ⟨1, ∅⟩).map (fun m => m.graph_radius) = Except.ok 0
    ∧ (topoMetricsE ⟨1, ∅⟩).map (fun m => m.avg_shortest_path_length)
        = Except.ok 0
    ∧ ((0 : Int) ≠ -1 ∧ (0 : ℚ) ≠ -1) := by
  refine ⟨rfl, rfl, rfl, by decide, ?_⟩
  intro h
  have h2 := congrArg Rat.num h
  simp at h2

/-- C3 (amended): whenever the metric computation returns a record (which
requires `N ≥ 1`), a disconnected graph yields exactly `-1` for
`graph_diameter`, `graph_radius` and `avg_shortest_path_length`, and a
connected graph — including the one-node graph, where all three are `0` —
yields the max eccentricity, the min eccentricity and the mean pairwise
shortest-path distance, none of which is ever `-1`. -/
theorem claim_C3_thm (g : NeighborGraph) (m : TopoMetrics)
    (hm : topoMetricsE g = Except.ok m) :
    (m.is_connected = 0 →
      m.graph_diameter = -1 ∧ m.graph_radius = -1
        ∧ m.avg_shortest_path_length = -1)
    ∧ (m.is_connected = 1 →
      m.graph_diameter = (graphDiameter g : Int)
        ∧ m.graph_radius = (graphRadius g : Int)
        ∧ m.avg_shortest_path_length = avgShortestPathLength g
        ∧ m.graph_diameter ≠ -1 ∧ m.graph_radius ≠ -1
        ∧ m.avg_shortest_path_length ≠ -1) := by
  unfold topoMetricsE at hm
  cases hc : nx_is_connected g with
  | error e => rw [hc] at hm; exact absurd hm (by simp)
  | ok isConn =>
    rw [hc] at hm
    cases hm
    cases isConn with
    | false =>
      refine ⟨fun _ => ⟨rfl, rfl, rfl⟩, fun h => absurd h ?_⟩
      simp
    | true =>
      refine ⟨fun h => absurd h (by simp), fun _ => ⟨rfl, rfl, rfl, ?_, ?_, ?_⟩⟩
      · simp only [if_true]
        intro h
        exact absurd h (by omega)
      · simp only [if_true]
        intro h
        exact absurd h (by omega)
      · simp only [if_true]
        intro h
        have := avgShortestPathLength_nonneg g
        rw [h] at this
        norm_num at this

/-- C3 witness: the amended theorem applied to the concrete disconnected
graph with two isolated nodes, whose sentinel values are all `-1`. -/
theorem claim_C3_witness :
    topoMetricsE ⟨2, ∅⟩ = Except.ok (metricsOrDefault ⟨2, ∅⟩)
    ∧ ((metricsOrDefault ⟨2, ∅⟩).graph_diameter = -1
        ∧ (metricsOrDefault ⟨2, ∅⟩).graph_radius = -1
        ∧ (metricsOrDefault ⟨2, ∅⟩).avg_shortest_path_length = -1) :=
  ⟨rfl, (claim_C3_thm ⟨2, ∅⟩ (metricsOrDefault ⟨2, ∅⟩) rfl).1 rfl⟩

/-! ## Orchestrator lemmas -/

/-- Every returned dictionary has at least its `MOF_ID` key, so it is
truthy. -/
theorem recordTruthy_eq_true (r : TopoRecord) : recordTruthy r = true := by
  unfold recordTruthy recordKeys
  cases r.metrics <;> rfl

/-- The truthiness filter at line 116 never drops a record. -/
theorem collectResults_eq (rs : List TopoRecord) : collectResults rs = rs :=
  List.filter_eq_self.mpr (fun r _ => recordTruthy_eq_true r)

/-- A task's record always carries the task's ID. -/
theorem extract_topo_features_mof_id (dir : CifDir) (mof_id : String) :
    (extract_topo_features dir mof_id).mof_id = mof_id := by
  unfold extract_topo_features
  cases taskOutcome dir mof_id <;> rfl

/-- The task list contains no duplicate IDs (the table is read into a
set). -/
theorem tasksOf_nodup (dir : CifDir) (ids : List String) :
    (tasksOf dir ids).Nodup :=
  (List.nodup_dedup ids).filter _

/-- An ID becomes a task exactly when it is listed and its file exists. -/
theorem mem_tasksOf (dir : CifDir) (ids : List String) (mof_id : String) :
    mof_id ∈ tasksOf dir ids ↔ mof_id ∈ ids ∧ (dir mof_id).isSome := by
  unfold tasksOf
  rw [List.mem_filter, List.mem_dedup]

/-- Any run's output is a permutation of the canonical task-order output. -/
theorem batchRun_perm (dir : CifDir) (ids : List String)
    (out : List TopoRecord) (hrun : BatchRun dir ids out) :
    out.Perm ((tasksOf dir ids).map (extract_topo_features dir)) := by
  rcases hrun with ⟨order, hperm, rfl⟩
  rw [collectResults_eq]
  exact hperm.map _

/-! ## Claim C1 -/

/-- C1, counterexample: the claim asserts that every ID of the validated-ID
table receives exactly one outcome, even when its structure file is
missing.  But an ID whose CIF file does not exist is filtered out before
task submission (line 105), so a table containing only the ID `A`, run
against an empty CIF directory, produces an empty result list: zero
outcomes for `A`, not one. -/
theorem claim_C1_counterexample :
    BatchRun (fun _ => none) ["A"] []
    ∧ List.countP (fun r => r.mof_id == "A") ([] : List TopoRecord) = 0 :=
  ⟨⟨tasksOf (fun _ => none) ["A"], List.Perm.refl _, rfl⟩, rfl⟩

/-- C1 (amended): in every run, an ID of the validated-ID table whose CIF
file exists receives exactly one outcome — even if the table lists it more
than once — while an ID whose CIF file is missing is silently dropped and
receives no outcome at all. -/
theorem claim_C1_thm (dir : CifDir) (ids : List String)
    (out : List TopoRecord) (hrun : BatchRun dir ids out)
    (mof_id : String) (hid : mof_id ∈ ids) :
    ((dir mof_id).isSome →
      out.countP (fun r => r.mof_id == mof_id) = 1)
    ∧ ((dir mof_id) = none →
      out.countP (fun r => r.mof_id == mof_id) = 0) := by
  have hcount : out.countP (fun r => r.mof_id == mof_id)
      = (tasksOf dir ids).count mof_id := by
    rw [(batchRun_perm dir ids out hrun).countP_eq, List.countP_map,
      List.count_eq_countP]
    apply List.countP_congr
    intro t _
    simp only [Function.comp_apply, extract_topo_features_mof_id]
  constructor
  · intro hsome
    rw [hcount]
    exact List.count_eq_one_of_mem (tasksOf_nodup dir ids)
      ((mem_tasksOf dir ids mof_id).mpr ⟨hid, hsome⟩)
  · intro hnone
    rw [hcount]
    apply List.count_eq_zero_of_not_mem
    intro hmem
    have hs := ((mem_tasksOf dir ids mof_id).mp hmem).2
    rw [hnone] at hs
    exact absurd hs (by simp)

/-- The CIF directory used by the C1 witness: only `A.cif` exists and
parses into the one-node graph. -/
def dirC1 : CifDir :=
  fun mof_id => if mof_id = "A" then some (Except.ok ⟨1, ∅⟩) else none

/-- The canonical-order output of the C1 witness run. -/
def runC1 : List TopoRecord :=
  collectResults
    ((tasksOf dirC1 ["A", "B", "A"]).map (extract_topo_features dirC1))

/-- C1 witness: the amended theorem applied to a table listing `A` twice
and `B` once, with only `A.cif` present: `A` gets exactly one outcome, `B`
none. -/
theorem claim_C1_witness :
    runC1.countP (fun r => r.mof_id == "A") = 1
    ∧ runC1.countP (fun r => r.mof_id == "B") = 0 :=
  ⟨(claim_C1_thm dirC1 ["A", "B", "A"] runC1
      ⟨tasksOf dirC1 ["A", "B", "A"], List.Perm.refl _, rfl⟩
      "A" (by simp)).1 rfl,
   (claim_C1_thm dirC1 ["A", "B", "A"] runC1
      ⟨tasksOf dirC1 ["A", "B", "A"], List.Perm.refl _, rfl⟩
      "B" (by simp)).2 rfl⟩

/-! ## Claim C9 -/

/-- C9: a task that fails returns the dictionary containing only the
`MOF_ID` key; that one-key dictionary is truthy, so the orchestrator's
`if result:` keeps it, and the failed ID appears in the collected results
as a row whose metric columns are all missing. -/
theorem claim_C9_thm (dir : CifDir) (ids : List String)
    (out : List TopoRecord) (hrun : BatchRun dir ids out)
    (mof_id : String) (hid : mof_id ∈ tasksOf dir ids)
    (e : String) (herr : taskOutcome dir mof_id = Except.error e) :
    extract_topo_features dir mof_id = ⟨mof_id, none⟩
    ∧ recordTruthy ⟨mof_id, none⟩ = true
    ∧ (⟨mof_id, none⟩ : TopoRecord) ∈ out := by
  have hrec : extract_topo_features dir mof_id = ⟨mof_id, none⟩ := by
    unfold extract_topo_features
    rw [herr]
  refine ⟨hrec, rfl, ?_⟩
  rcases hrun with ⟨order, hperm, rfl⟩
  rw [collectResults_eq]
  rw [← hrec]
  exact List.mem_map_of_mem _ (hperm.mem_iff.mpr hid)

/-- The CIF directory used by the C9 witness: `X.cif` exists but its
contents make the parse/graph pipeline raise. -/
def dirC9 : CifDir :=
  fun mof_id =>
    if mof_id = "X" then some (Except.error "invalid CIF file") else none

/-- The canonical-order output of the C9 witness run. -/
def runC9 : List TopoRecord :=
  collectResults ((tasksOf dirC9 ["X"]).map (extract_topo_features dirC9))

/-- C9 witness: the theorem applied to a one-ID run whose only task
fails. -/
theorem claim_C9_witness :
    extract_topo_features dirC9 "X" = ⟨"X", none⟩
    ∧ recordTruthy ⟨"X", none⟩ = true
    ∧ (⟨"X", none⟩ : TopoRecord) ∈ runC9 :=
  claim_C9_thm dirC9 ["X"] runC9
    ⟨tasksOf dirC9 ["X"], List.Perm.refl _, rfl⟩
    "X" (by simp [mem_tasksOf, dirC9]) "invalid CIF file" rfl

/-! ## Claim C7 -/

/-- The per-ID success/failure classification read off a result list:
`none` when the ID has no record, otherwise whether its first record is a
success. -/
def classification (out : List TopoRecord) (mof_id : String) :
    Option Bool :=
  (out.find? (fun r => r.mof_id == mof_id)).map (fun r => r.metrics.isSome)

/-- In a list whose elements satisfying `p` are all equal, `find? p` is
invariant under permutation. -/
theorem find?_eq_of_perm {α : Type} (p : α → Bool) {l1 l2 : List α}
    (h : l1.Perm l2)
    (huniq : ∀ a ∈ l1, ∀ b ∈ l1, p a → p b → a = b) :
    l1.find? p = l2.find? p := by
  induction h with
  | nil => rfl
  | cons x _ ih =>
    simp only [List.find?_cons]
    cases p x
    · exact ih (fun a ha b hb hpa hpb =>
        huniq a (List.mem_cons_of_mem x ha) b (List.mem_cons_of_mem x hb)
          hpa hpb)
    · rfl
  | swap x y l =>
    simp only [List.find?_cons]
    cases hy : p y <;> cases hx : p x
    · rfl
    · rfl
    · rfl
    · have : y = x := huniq y (by simp) x (by simp) hy hx
      rw [this]
  | trans h12 _ ih12 ih23 =>
    refine (ih12 huniq).trans (ih23 ?_)
    intro a ha b hb hpa hpb
    exact huniq a (h12.mem_iff.mpr ha) b (h12.mem_iff.mpr hb) hpa hpb

/-- Records matching an ID in any run output are unique: they all equal the
record computed for that ID. -/
theorem out_key_uniq (dir : CifDir) (ids : List String)
    (out : List TopoRecord) (hrun : BatchRun dir ids out)
    (mof_id : String) :
    ∀ a ∈ out, ∀ b ∈ out,
      (a.mof_id == mof_id) → (b.mof_id == mof_id) → a = b := by
  have hperm := batchRun_perm dir ids out hrun
  intro a ha b hb hpa hpb
  have hval : ∀ c ∈ out, (c.mof_id == mof_id) →
      c = extract_topo_features dir mof_id := by
    intro c hc hpc
    rcases List.mem_map.mp (hperm.mem_iff.mp hc) with ⟨t, _, rfl⟩
    have ht : t = mof_id := by
      rw [extract_topo_features_mof_id] at hpc
      exact eq_of_beq hpc
    rw [ht]
  rw [hval a ha hpa, hval b hb hpb]

/-- C7: two runs on identical input (same validated-ID table, same CIF
directory) classify every requested ID identically as success or failure,
although the collection order of the records may differ. -/
theorem claim_C7_thm (dir : CifDir) (ids : List String)
    (out1 out2 : List TopoRecord)
    (h1 : BatchRun dir ids out1) (h2 : BatchRun dir ids out2)
    (mof_id : String) :
    classification out1 mof_id = classification out2 mof_id := by
  unfold classification
  rw [find?_eq_of_perm (fun r => r.mof_id == mof_id)
    ((batchRun_perm dir ids out1 h1).trans
      (batchRun_perm dir ids out2 h2).symm)
    (out_key_uniq dir ids out1 h1 mof_id)]

/-- The CIF directory of the C7 witness: `A.cif` parses, `B.cif` is
corrupt. -/
def dirC7 : CifDir :=
  fun mof_id =>
    if mof_id = "A" then some (Except.ok ⟨1, ∅⟩)
    else if mof_id = "B" then some (Except.error "corrupt") else none

/-- Canonical-order output of the C7 witness. -/
def runC7a : List TopoRecord :=
  collectResults
    ((tasksOf dirC7 ["A", "B"]).map (extract_topo_features dirC7))

/-- Reversed-order output of the C7 witness (the other completion
order). -/
def runC7b : List TopoRecord :=
  collectResults
    (((tasksOf dirC7 ["A", "B"]).reverse).map (extract_topo_features dirC7))

/-- C7 witness: the theorem applied to two concrete runs of the same input
whose collection orders differ. -/
theorem claim_C7_witness :
    classification runC7a "B" = classification runC7b "B" :=
  claim_C7_thm dirC7 ["A", "B"] runC7a runC7b
    ⟨tasksOf dirC7 ["A", "B"], List.Perm.refl _, rfl⟩
    ⟨(tasksOf dirC7 ["A", "B"]).reverse, List.reverse_perm _, rfl⟩
    "B"

/-! ## Claim C6 -/

/-- Complementary counts: the elements failing a predicate and those
satisfying it partition the length. -/
theorem countP_not_add {α : Type} (p : α → Bool) (l : List α) :
    l.countP (fun a => !(p a)) + l.countP p = l.length := by
  induction l with
  | nil => rfl
  | cons x t ih =>
    cases hx : p x <;> simp [List.countP_cons, hx, ← ih] <;> omega

/-- A task's record depends on the directory only through the task's own
file. -/
theorem extract_topo_features_congr (dir dir2 : CifDir) (mof_id : String)
    (h : dir2 mof_id = dir mof_id) :
    extract_topo_features dir2 mof_id = extract_topo_features dir mof_id := by
  unfold extract_topo_features taskOutcome
  rw [h]

/-- A clean task (file parses, metrics succeed) yields a record with all
metric fields present. -/
theorem extract_isSome_of_clean (dir : CifDir) (mof_id : String)
    (g : NeighborGraph) (hg : dir mof_id = some (Except.ok g))
    (hok : (topoMetricsE g).isOk = true) :
    (extract_topo_features dir mof_id).metrics.isSome = true := by
  have houtcome : taskOutcome dir mof_id = topoMetricsE g := by
    unfold taskOutcome
    rw [hg]
  unfold extract_topo_features
  rw [houtcome]
  cases hm : topoMetricsE g with
  | error e => rw [hm] at hok; exact Bool.noConfusion hok
  | ok m => rfl

/-- The CIF directory of the C6 counterexample: `A.cif` parses into the
one-node graph, and `B.cif` — the injected bad input — is missing. -/
def dirC6 : CifDir :=
  fun mof_id => if mof_id = "A" then some (Except.ok ⟨1, ∅⟩) else none

/-- Canonical-order output of the C6 counterexample run. -/
def runC6 : List TopoRecord :=
  collectResults
    ((tasksOf dirC6 ["A", "B"]).map (extract_topo_features dirC6))

/-- C6, counterexample: the claim covers a corrupt *or missing* structure
file among `N` requested IDs and asserts the run yields exactly one
FailureRecord referencing the bad ID.  But when `B.cif` is missing among
`N = 2` requested IDs, the run produces one MetricsRecord for `A` and no
record at all for `B`: zero failure records, because missing-file IDs are
dropped before task submission. -/
theorem claim_C6_counterexample :
    BatchRun dirC6 ["A", "B"] runC6
    ∧ runC6.countP (fun r => r.metrics.isNone) = 0
    ∧ runC6.countP (fun r => r.mof_id == "B") = 0
    ∧ runC6.countP (fun r => r.metrics.isSome) = 1 :=
  ⟨⟨tasksOf dirC6 ["A", "B"], List.Perm.refl _, rfl⟩, rfl, rfl, rfl⟩

/-- C6 (amended): if among the requested IDs exactly one, `c`, has a
*corrupt* structure file (present but failing the parse → build → metrics
pipeline) and every other requested ID processes cleanly, then any run
yields exactly one failure record, that record carries `c`, every other
deduplicated ID yields a metrics record, and the non-`c` records are
(up to collection order) identical to those of any run whose directory
differs only at `c` — the failure is confined to the corrupt ID. -/
theorem claim_C6_thm (dir : CifDir) (ids : List String) (c : String)
    (hc : c ∈ ids) (msg : String)
    (hcorrupt : dir c = some (Except.error msg))
    (hothers : ∀ mof_id ∈ ids, mof_id ≠ c →
      ∃ g, dir mof_id = some (Except.ok g) ∧ (topoMetricsE g).isOk = true)
    (out : List TopoRecord) (hrun : BatchRun dir ids out) :
    out.countP (fun r => r.metrics.isNone) = 1
    ∧ (∀ r ∈ out, r.metrics = none → r.mof_id = c)
    ∧ out.countP (fun r => r.metrics.isSome) = ids.dedup.length - 1
    ∧ (∀ dir2 : CifDir,
        (∀ mof_id : String, mof_id ≠ c → dir2 mof_id = dir mof_id) →
        ∀ out2 : List TopoRecord, BatchRun dir2 ids out2 →
          (out2.filter (fun r => !(r.mof_id == c))).Perm
            (out.filter (fun r => !(r.mof_id == c)))) := by
  have htasks : tasksOf dir ids = ids.dedup := by
    unfold tasksOf
    apply List.filter_eq_self.mpr
    intro t ht
    rcases eq_or_ne t c with rfl | hne
    · rw [hcorrupt]; rfl
    · rcases hothers t (List.mem_dedup.mp ht) hne with ⟨g, hg, _⟩
      rw [hg]; rfl
  have hfail : ∀ t ∈ ids.dedup,
      (extract_topo_features dir t).metrics.isNone = (t == c) := by
    intro t ht
    rcases eq_or_ne t c with rfl | hne
    · have hrec : extract_topo_features dir t = ⟨t, none⟩ := by
        unfold extract_topo_features taskOutcome
        rw [hcorrupt]
      rw [hrec]
      simp
    · rcases hothers t (List.mem_dedup.mp ht) hne with ⟨g, hg, hok⟩
      have hs := extract_isSome_of_clean dir t g hg hok
      cases hm : (extract_topo_features dir t).metrics with
      | none => rw [hm] at hs; exact absurd hs (by simp)
      | some m =>
        have hbc : (t == c) = false := beq_eq_false_iff_ne.mpr hne
        rw [hbc]
        rfl
  have hcountNone : out.countP (fun r => r.metrics.isNone) = 1 := by
    rw [(batchRun_perm dir ids out hrun).countP_eq, List.countP_map, htasks]
    have hcg : (ids.dedup).countP
        ((fun r => r.metrics.isNone) ∘ extract_topo_features dir)
        = (ids.dedup).countP (fun t => t == c) := by
      apply List.countP_congr
      intro t ht
      simp only [Function.comp_apply]
      rw [hfail t ht]
    rw [hcg, ← List.count_eq_countP]
    exact List.count_eq_one_of_mem (List.nodup_dedup ids)
      (List.mem_dedup.mpr hc)
  have hOnly : ∀ r ∈ out, r.metrics = none → r.mof_id = c := by
    intro r hr hnone
    have hmem := (batchRun_perm dir ids out hrun).mem_iff.mp hr
    rw [htasks] at hmem
    rcases List.mem_map.mp hmem with ⟨t, ht, rfl⟩
    have hbc : (t == c) = true := by
      rw [← hfail t ht, hnone]
      rfl
    rw [extract_topo_features_mof_id]
    exact eq_of_beq hbc
  have hcountSome :
      out.countP (fun r => r.metrics.isSome) = ids.dedup.length - 1 := by
    rw [(batchRun_perm dir ids out hrun).countP_eq, List.countP_map, htasks]
    have h1 : (ids.dedup).countP
        ((fun r => r.metrics.isSome) ∘ extract_topo_features dir)
        = (ids.dedup).countP (fun t => !(t == c)) := by
      apply List.countP_congr
      intro t ht
      simp only [Function.comp_apply]
      cases hm : (extract_topo_features dir t).metrics with
      | none =>
        have hn := hfail t ht
        rw [hm] at hn
        simp only [Option.isNone_none] at hn
        rw [← hn]
        rfl
      | some m =>
        have hn := hfail t ht
        rw [hm] at hn
        simp only [Option.isNone_some] at hn
        rw [← hn]
        rfl
    rw [h1]
    have h2 := countP_not_add (fun t => t == c) ids.dedup
    have h3 : (ids.dedup).countP (fun t => t == c) = 1 := by
      rw [← List.count_eq_countP]
      exact List.count_eq_one_of_mem (List.nodup_dedup ids)
        (List.mem_dedup.mpr hc)
    omega
  refine ⟨hcountNone, hOnly, hcountSome, ?_⟩
  intro dir2 hagree out2 hrun2
  have hp2 := (batchRun_perm dir2 ids out2 hrun2).filter
    (fun r => !(r.mof_id == c))
  have hp1 := (batchRun_perm dir ids out hrun).filter
    (fun r => !(r.mof_id == c))
  have hc2 : ∀ dirX : CifDir, ((tasksOf dirX ids).filter
      ((fun r => !(r.mof_id == c)) ∘ extract_topo_features dirX))
      = (tasksOf dirX ids).filter (fun t => !(t == c)) := by
    intro dirX
    apply List.filter_congr
    intro t _
    simp only [Function.comp_apply, extract_topo_features_mof_id]
  have hkey :
      ((tasksOf dir2 ids).map (extract_topo_features dir2)).filter
          (fun r => !(r.mof_id == c))
      = ((tasksOf dir ids).map (extract_topo_features dir)).filter
          (fun r => !(r.mof_id == c)) := by
    rw [List.filter_map, List.filter_map, hc2 dir2, hc2 dir]
    unfold tasksOf
    rw [List.filter_filter, List.filter_filter]
    have hfe : (ids.dedup).filter
        (fun a => (!(a == c)) && (dir2 a).isSome)
        = (ids.dedup).filter (fun a => (!(a == c)) && (dir a).isSome) := by
      apply List.filter_congr
      intro t _
      rcases eq_or_ne t c with rfl | hne
      · simp
      · rw [hagree t hne]
    rw [hfe]
    apply List.map_congr_left
    intro t ht
    have hne : t ≠ c := by
      have hq := (List.mem_filter.mp ht).2
      intro heq
      rw [heq] at hq
      simp at hq
    exact extract_topo_features_congr dir dir2 t (hagree t hne)
  exact hp2.trans (by rw [hkey]; exact hp1.symm)

/-- The CIF directory of the C6 witness: `A.cif` parses into the one-node
graph, and `B.cif` exists but is corrupt. -/
def dirC6w : CifDir :=
  fun mof_id =>
    if mof_id = "A" then some (Except.ok ⟨1, ∅⟩)
    else if mof_id = "B" then some (Except.error "bad CIF") else none

/-- Canonical-order output of the C6 witness run. -/
def runC6w : List TopoRecord :=
  collectResults
    ((tasksOf dirC6w ["A", "B"]).map (extract_topo_features dirC6w))

/-- C6 witness: the amended theorem applied to two requested IDs of which
exactly `B` is corrupt: one failure record, one metrics record. -/
theorem claim_C6_witness :
    runC6w.countP (fun r => r.metrics.isNone) = 1
    ∧ runC6w.countP (fun r => r.metrics.isSome)
        = (["A", "B"].dedup).length - 1 := by
  have hothers : ∀ mof_id ∈ ["A", "B"], mof_id ≠ "B" →
      ∃ g, dirC6w mof_id = some (Except.ok g)
        ∧ (topoMetricsE g).isOk = true := by
    intro mof_id hmem hne
    simp only [List.mem_cons, List.mem_singleton] at hmem
    rcases hmem with rfl | hmem
    · exact ⟨⟨1, ∅⟩, rfl, rfl⟩
    · rcases hmem with rfl | hmem
      · exact absurd rfl hne
      · exact absurd hmem (List.not_mem_nil mof_id)
  have h := claim_C6_thm dirC6w ["A", "B"] "B" (by simp) "bad CIF" rfl
    hothers runC6w ⟨tasksOf dirC6w ["A", "B"], List.Perm.refl _, rfl⟩
  exact ⟨h.1, h.2.2.1⟩

/-! ## Claim C5: degree-distribution entropy -/

/-- One degree value per node. -/
theorem length_degreeList (g : NeighborGraph) :
    (degreeList g).length = g.N := by
  unfold degreeList
  rw [List.length_map, List.length_range]

/-- Summing the multiplicities of the distinct values of a list gives its
length. -/
theorem sum_count_toFinset (l : List ℕ) :
    ∑ k in l.toFinset, l.count k = l.length := by
  simp

/-- The `total_nodes` accumulator of line 40 equals the node count. -/
theorem totalNodes_eq (g : NeighborGraph) : totalNodes g = g.N := by
  unfold totalNodes
  rw [sum_count_toFinset, length_degreeList]

/-- The empirical degree probabilities sum to one. -/
theorem probs_sum_one (l : List ℕ) (n : ℕ) (hn : l.length = n)
    (hl : 0 < n) :
    ∑ k in l.toFinset, ((l.count k : ℝ) / (n : ℝ)) = 1 := by
  rw [← Finset.sum_div]
  have hnum : ∑ k in l.toFinset, ((l.count k : ℝ)) = (n : ℝ) := by
    rw [← Nat.cast_sum, sum_count_toFinset, hn]
  rw [hnum]
  exact div_self (by positivity)

/-- Each term of the entropy sum is nonnegative, so the entropy is. -/
theorem entropy_nonneg (l : List ℕ) (n : ℕ) (hn : l.length = n) :
    0 ≤ -∑ k in l.toFinset,
        ((l.count k : ℝ) / (n : ℝ))
          * Real.logb 2 ((l.count k : ℝ) / (n : ℝ)) := by
  rw [neg_nonneg]
  apply Finset.sum_nonpos
  intro k _
  have h1 : (0 : ℝ) ≤ (l.count k : ℝ) / (n : ℝ) := by positivity
  have h2 : (l.count k : ℝ) / (n : ℝ) ≤ 1 := by
    rcases Nat.eq_zero_or_pos n with h0 | hpos
    · rw [h0]
      simp
    · rw [div_le_one (by positivity)]
      have := List.count_le_length k l
      rw [hn] at this
      exact_mod_cast this
  exact mul_nonpos_of_nonneg_of_nonpos h1
    (Real.logb_nonpos (by norm_num) h1 h2)

/-- The base-2 logarithm is concave on the positive reals. -/
theorem concaveOn_logb_two :
    ConcaveOn ℝ (Set.Ioi 0) (fun x : ℝ => Real.logb 2 x) := by
  have h0 : ConcaveOn ℝ (Set.Ioi 0) Real.log :=
    strictConcaveOn_log_Ioi.concaveOn
  have hc0 : (0 : ℝ) ≤ (Real.log 2)⁻¹ :=
    inv_nonneg.mpr (Real.log_nonneg (by norm_num))
  have h1 := h0.smul hc0
  have hfe : (fun x : ℝ => (Real.log 2)⁻¹ • Real.log x)
      = fun x : ℝ => Real.logb 2 x := by
    funext x
    rw [smul_eq_mul, Real.logb, div_eq_inv_mul]
  rw [hfe] at h1
  exact h1

/-- Jensen bound: the entropy of an empirical distribution over `m`
distinct values is at most `log2 m`. -/
theorem entropy_le_logCard (l : List ℕ) (n : ℕ) (hn : l.length = n)
    (hl : 0 < n) :
    -∑ k in l.toFinset,
        ((l.count k : ℝ) / (n : ℝ))
          * Real.logb 2 ((l.count k : ℝ) / (n : ℝ))
      ≤ Real.logb 2 (l.toFinset.card : ℝ) := by
  have hw0 : ∀ k ∈ l.toFinset,
      (0 : ℝ) ≤ (l.count k : ℝ) / (n : ℝ) := by
    intro k _
    positivity
  have hwpos : ∀ k ∈ l.toFinset,
      (0 : ℝ) < (l.count k : ℝ) / (n : ℝ) := by
    intro k hk
    have hcp : 0 < l.count k :=
      List.count_pos_iff.mpr (List.mem_toFinset.mp hk)
    have hnp : (0 : ℝ) < (n : ℝ) := by positivity
    exact div_pos (by exact_mod_cast hcp) hnp
  have hsum := probs_sum_one l n hn hl
  have hmem : ∀ k ∈ l.toFinset,
      (((l.count k : ℝ) / (n : ℝ))⁻¹) ∈ Set.Ioi (0 : ℝ) := by
    intro k hk
    exact Set.mem_Ioi.mpr (inv_pos.mpr (hwpos k hk))
  have hjensen := concaveOn_logb_two.le_map_sum hw0 hsum hmem
  have hx : ∑ k in l.toFinset,
      ((l.count k : ℝ) / (n : ℝ)) • (((l.count k : ℝ) / (n : ℝ))⁻¹)
      = (l.toFinset.card : ℝ) := by
    rw [Finset.sum_congr rfl
      (fun k hk => by
        rw [smul_eq_mul, mul_inv_cancel₀ (ne_of_gt (hwpos k hk))])]
    rw [Finset.sum_const, nsmul_eq_mul, mul_one]
  rw [hx] at hjensen
  have hlhs : -∑ k in l.toFinset,
      ((l.count k : ℝ) / (n : ℝ))
        * Real.logb 2 ((l.count k : ℝ) / (n : ℝ))
      = ∑ k in l.toFinset,
        ((l.count k : ℝ) / (n : ℝ))
          • Real.logb 2 (((l.count k : ℝ) / (n : ℝ))⁻¹) := by
    rw [← Finset.sum_neg_distrib]
    apply Finset.sum_congr rfl
    intro k _
    rw [Real.logb_inv, smul_eq_mul]
    ring
  rw [hlhs]
  exact hjensen

/-- The entropy vanishes exactly when the list has a single distinct
value. -/
theorem entropy_eq_zero_iff (l : List ℕ) (n : ℕ) (hn : l.length = n)
    (hl : 0 < n) :
    (-∑ k in l.toFinset,
        ((l.count k : ℝ) / (n : ℝ))
          * Real.logb 2 ((l.count k : ℝ) / (n : ℝ)) = 0)
      ↔ ∀ a ∈ l, ∀ b ∈ l, a = b := by
  constructor
  · intro h0
    by_contra hne
    push_neg at hne
    rcases hne with ⟨a, ha, b, hb, hab⟩
    have hca : l.count a < n := by
      rcases Nat.lt_or_ge (l.count a) n with h | h
      · exact h
      · have heq : l.count a = l.length :=
          Nat.le_antisymm (List.count_le_length a l) (hn ▸ h)
        have hall := List.count_eq_length.mp heq
        exact absurd (hall b hb) hab
    have hwa_pos : (0 : ℝ) < (l.count a : ℝ) / (n : ℝ) := by
      have hcp : 0 < l.count a := List.count_pos_iff.mpr ha
      have hnp : (0 : ℝ) < (n : ℝ) := by positivity
      exact div_pos (by exact_mod_cast hcp) hnp
    have hwa_lt : (l.count a : ℝ) / (n : ℝ) < 1 := by
      rw [div_lt_one (by positivity)]
      exact_mod_cast hca
    have hterm_neg : ((l.count a : ℝ) / (n : ℝ))
        * Real.logb 2 ((l.count a : ℝ) / (n : ℝ)) < 0 :=
      mul_neg_of_pos_of_neg hwa_pos
        (Real.logb_neg (by norm_num) hwa_pos hwa_lt)
    have hle : ∀ k ∈ l.toFinset, ((l.count k : ℝ) / (n : ℝ))
        * Real.logb 2 ((l.count k : ℝ) / (n : ℝ)) ≤ 0 := by
      intro k _
      have h1 : (0 : ℝ) ≤ (l.count k : ℝ) / (n : ℝ) := by positivity
      have h2 : (l.count k : ℝ) / (n : ℝ) ≤ 1 := by
        rw [div_le_one (by positivity)]
        have := List.count_le_length k l
        rw [hn] at this
        exact_mod_cast this
      exact mul_nonpos_of_nonneg_of_nonpos h1
        (Real.logb_nonpos (by norm_num) h1 h2)
    have hsumneg : ∑ k in l.toFinset,
        ((l.count k : ℝ) / (n : ℝ))
          * Real.logb 2 ((l.count k : ℝ) / (n : ℝ)) < 0 := by
      have := Finset.sum_lt_sum hle
        ⟨a, List.mem_toFinset.mpr ha, hterm_neg⟩
      rw [Finset.sum_const_zero] at this
      exact this
    linarith
  · intro hsame
    have hne : l ≠ [] := by
      intro h
      rw [h] at hn
      simp at hn
      omega
    rcases List.exists_mem_of_ne_nil l hne with ⟨d, hd⟩
    have ht : l.toFinset = {d} := by
      apply Finset.ext
      intro k
      simp only [List.mem_toFinset, Finset.mem_singleton]
      constructor
      · intro hk
        exact hsame k hk d hd
      · intro hk
        rw [hk]
        exact hd
    rw [ht, Finset.sum_singleton]
    have hcd : l.count d = l.length :=
      List.count_eq_length.mpr (fun b hb => hsame d hd b hb)
    rw [hcd, hn, div_self (show (n : ℝ) ≠ 0 by positivity),
      Real.logb_one]
    ring

/-- C5: for every graph with at least one node, the entropy of lines 39-42
is the Shannon entropy in bits of the empirical degree distribution over
the distinct observed degree values; all the probabilities involved are
strictly positive (so `log2` is never taken at `0`); the entropy is
nonnegative, at most `log2` of the number of distinct degree values, and
zero exactly when every node has the same degree. -/
theorem claim_C5_thm (g : NeighborGraph) (hN : 0 < g.N) :
    (∀ k ∈ (degreeList g).toFinset, 0 < (degreeList g).count k)
    ∧ 0 ≤ graphEntropy g
    ∧ graphEntropy g ≤ Real.logb 2 ((degreeList g).toFinset.card : ℝ)
    ∧ (graphEntropy g = 0
        ↔ ∀ a ∈ degreeList g, ∀ b ∈ degreeList g, a = b) := by
  have hE : graphEntropy g = -∑ k in (degreeList g).toFinset,
      (((degreeList g).count k : ℝ) / (g.N : ℝ))
        * Real.logb 2 (((degreeList g).count k : ℝ) / (g.N : ℝ)) := by
    unfold graphEntropy
    rw [totalNodes_eq]
  refine ⟨?_, ?_, ?_, ?_⟩
  · intro k hk
    exact List.count_pos_iff.mpr (List.mem_toFinset.mp hk)
  · rw [hE]
    exact entropy_nonneg (degreeList g) g.N (length_degreeList g)
  · rw [hE]
    exact entropy_le_logCard (degreeList g) g.N (length_degreeList g) hN
  · rw [hE]
    exact entropy_eq_zero_iff (degreeList g) g.N (length_degreeList g) hN

/-- C5 witness: the theorem applied to the concrete two-node graph with a
single edge (both nodes have degree one), discharging the node-count
hypothesis there. -/
theorem claim_C5_witness :
    0 < (NeighborGraph.mk 2 {(0, 1)}).N
    ∧ (0 ≤ graphEntropy ⟨2, {(0, 1)}⟩
        ∧ (graphEntropy ⟨2, {(0, 1)}⟩ = 0
            ↔ ∀ a ∈ degreeList ⟨2, {(0, 1)}⟩,
                ∀ b ∈ degreeList ⟨2, {(0, 1)}⟩, a = b)) :=
  ⟨by decide,
    (claim_C5_thm ⟨2, {(0, 1)}⟩ (by decide)).2.1,
    (claim_C5_thm ⟨2, {(0, 1)}⟩ (by decide)).2.2.2⟩

/-! ## Claim C8: error-log line format -/

/-- The exception message a failing task logs (empty for a succeeding
task, which logs nothing). -/
def taskReason (dir : CifDir) (mof_id : String) : String :=
  match taskOutcome dir mof_id with
  | Except.ok _ => ""
  | Except.error e => e

/-- Flattening one-or-zero-element blocks is a filter followed by a
map. -/
theorem flatMap_if_filter {α β : Type} (f : α → Bool) (gl : α → β)
    (l : List α) :
    l.flatMap (fun a => if f a then [gl a] else [])
      = (l.filter f).map gl := by
  induction l with
  | nil => rfl
  | cons x t ih =>
    cases hx : f x <;>
      simp [List.flatMap_cons, hx, ih, List.filter_cons]

/-- C8, counterexample: the claim asserts the error log receives, for a
failed ID, a line of the form `<ID>: <reason>`.  But the topological stage
logs `f"Error processing {mof_id}: {e}"` (line 71, message-only format),
so the line for the failed ID `A` starts with `Error processing `, and no
choice of reason makes it of the claimed form. -/
theorem claim_C8_counterexample :
    ¬ ∃ reason : String,
      topoErrorLogLine "A" "parse error" = specLogLine "A" reason := by
  rintro ⟨reason, h⟩
  have hL : (topoErrorLogLine "A" "parse error").data.head?
      = some 'E' := rfl
  have hR : (specLogLine "A" reason).data.head? = some 'A' := by
    unfold specLogLine
    rw [String.data_append]
    rfl
  rw [h, hR] at hL
  exact absurd (Option.some.inj hL) (by decide)

/-- C8 (amended): for every failed ID the topological stage appends exactly
one line to its error log, but of the form `Error processing <ID>:
<reason>` — never of the claimed form `<ID>: <reason>` — and the chemical
stage writes lines keyed by the file name `<ID>.cif` (again never the
claimed form), rewriting its log from scratch in write mode rather than
appending. -/
theorem claim_C8_thm (dir : CifDir) (ids : List String) :
    topoRunLog dir ids
      = ((tasksOf dir ids).filter
          (fun t => !(taskOutcome dir t).isOk)).map
          (fun t => topoErrorLogLine t (taskReason dir t))
    ∧ ((tasksOf dir ids).filter
        (fun t => !(taskOutcome dir t).isOk)).Nodup
    ∧ (∀ mof_id reason : String,
        topoErrorLogLine mof_id reason ≠ specLogLine mof_id reason)
    ∧ (∀ mof_id reason : String,
        chemLogLine (mof_id ++ ".cif") reason
          ≠ specLogLine mof_id reason) := by
  refine ⟨?_, (tasksOf_nodup dir ids).filter _, ?_, ?_⟩
  · unfold topoRunLog
    have hfn : taskLogLines dir = fun t =>
        if !(taskOutcome dir t).isOk
        then [topoErrorLogLine t (taskReason dir t)] else [] := by
      funext t
      unfold taskLogLines taskReason
      cases taskOutcome dir t <;> rfl
    rw [hfn, flatMap_if_filter]
  · intro mof_id reason h
    have hlen := congrArg String.length h
    simp only [topoErrorLogLine, specLogLine, String.length_append] at hlen
    have h17 : ("Error processing " : String).length = 17 := rfl
    have h2 : (": " : String).length = 2 := rfl
    rw [h17, h2] at hlen
    omega
  · intro mof_id reason h
    have hlen := congrArg String.length h
    simp only [chemLogLine, specLogLine, String.length_append] at hlen
    have h4 : (".cif" : String).length = 4 := rfl
    have h2 : (": " : String).length = 2 := rfl
    rw [h4, h2] at hlen
    omega

/-- The CIF directory of the C8 witness: `X.cif` exists but is corrupt. -/
def dirC8 : CifDir :=
  fun mof_id =>
    if mof_id = "X" then some (Except.error "broken") else none

/-- C8 witness: the amended theorem applied to a concrete one-ID run with
a corrupt file, and to a concrete ID/reason pair for the format
discrepancy. -/
theorem claim_C8_witness :
    topoRunLog dirC8 ["X"]
      = ((tasksOf dirC8 ["X"]).filter
          (fun t => !(taskOutcome dirC8 t).isOk)).map
          (fun t => topoErrorLogLine t (taskReason dirC8 t))
    ∧ topoErrorLogLine "X" "broken" ≠ specLogLine "X" "broken" :=
  ⟨(claim_C8_thm dirC8 ["X"]).1,
   (claim_C8_thm dirC8 ["X"]).2.2.1 "X" "broken"⟩

/-! ## Claim C10: the chemical stage's hMOF cap -/

/-- C10: the chemical stage selects every `.cif` file not starting with
`hMOF-`, selects a `.cif` file starting with `hMOF-` exactly when it is
among the first 15000 such files in directory-listing order, and in
particular never selects more than 15000 `hMOF-` files — so later hMOF
structures can never enter the validated-ID table consumed downstream. -/
theorem claim_C10_thm (allFiles : List String)
    (hnd : allFiles.Nodup) :
    (∀ f ∈ allFiles, pyEndsWith f ".cif" = true →
        pyStartsWith f "hMOF-" = false → f ∈ selectChemFiles allFiles)
    ∧ ((selectChemFiles allFiles).countP
        (fun f => pyStartsWith f "hMOF-") ≤ 15000)
    ∧ (∀ f ∈ (allFiles.filter
          (fun x => pyEndsWith x ".cif" && pyStartsWith x "hMOF-")).take
            15000,
        f ∈ selectChemFiles allFiles)
    ∧ (∀ f ∈ (allFiles.filter
          (fun x => pyEndsWith x ".cif" && pyStartsWith x "hMOF-")).drop
            15000,
        f ∉ selectChemFiles allFiles) := by
  refine ⟨?_, ?_, ?_, ?_⟩
  · intro f hf he hs
    unfold selectChemFiles
    apply List.mem_append_left
    apply List.mem_filter.mpr
    refine ⟨hf, ?_⟩
    rw [he, hs]
    rfl
  · unfold selectChemFiles
    rw [List.countP_append]
    have hcore : (allFiles.filter
        (fun f => pyEndsWith f ".cif" && !(pyStartsWith f "hMOF-"))).countP
        (fun f => pyStartsWith f "hMOF-") = 0 := by
      apply List.countP_eq_zero.mpr
      intro f hf
      have hc := (List.mem_filter.mp hf).2
      rw [Bool.and_eq_true] at hc
      obtain ⟨_, hns⟩ := hc
      rw [Bool.not_eq_true'] at hns
      rw [hns]
      exact Bool.false_ne_true
    have htake : ((allFiles.filter
        (fun f => pyEndsWith f ".cif" && pyStartsWith f "hMOF-")).take
          15000).countP (fun f => pyStartsWith f "hMOF-") ≤ 15000 := by
      refine le_trans (List.countP_le_length _) ?_
      rw [List.length_take]
      exact min_le_left _ _
    omega
  · intro f hf
    unfold selectChemFiles
    exact List.mem_append_right _ hf
  · intro f hfd hmem
    have hfm : f ∈ allFiles.filter
        (fun x => pyEndsWith x ".cif" && pyStartsWith x "hMOF-") :=
      List.mem_of_mem_drop hfd
    have hcond := (List.mem_filter.mp hfm).2
    rw [Bool.and_eq_true] at hcond
    obtain ⟨_, hstart⟩ := hcond
    unfold selectChemFiles at hmem
    rcases List.mem_append.mp hmem with hcore | htake
    · have hc := (List.mem_filter.mp hcore).2
      rw [Bool.and_eq_true] at hc
      obtain ⟨_, hns⟩ := hc
      rw [Bool.not_eq_true'] at hns
      rw [hstart] at hns
      exact Bool.noConfusion hns
    · have hnd2 : (allFiles.filter
          (fun x => pyEndsWith x ".cif" && pyStartsWith x "hMOF-")).Nodup :=
        hnd.filter _
      rw [← List.take_append_drop 15000 (allFiles.filter
        (fun x => pyEndsWith x ".cif" && pyStartsWith x "hMOF-"))] at hnd2
      rcases List.nodup_append.mp hnd2 with ⟨_, _, hdisj⟩
      exact hdisj htake hfd

/-- C10 witness: the theorem applied to a concrete two-file listing,
discharging the no-duplicate-filenames hypothesis there. -/
theorem claim_C10_witness :
    (["a.cif", "hMOF-1.cif"] : List String).Nodup
    ∧ "a.cif" ∈ selectChemFiles ["a.cif", "hMOF-1.cif"]
    ∧ (selectChemFiles ["a.cif", "hMOF-1.cif"]).countP
        (fun f => pyStartsWith f "hMOF-") ≤ 15000 := by
  have hnd : (["a.cif", "hMOF-1.cif"] : List String).Nodup := by
    simp
  exact ⟨hnd,
    (claim_C10_thm ["a.cif", "hMOF-1.cif"] hnd).1 "a.cif"
      (by simp) (by decide) (by decide),
    (claim_C10_thm ["a.cif", "hMOF-1.cif"] hnd).2.1⟩

end ChemAD
